import Mathlib

/-!
Verification development for the gpt-codex-proxy repository
(`src/server.mjs`: a Node HTTP proxy and a Cloudflare Worker variant).

The JavaScript source is shallowly embedded: JSON/JS values become the
inductive `JSValue`, JS numbers become `JSNum` (NaN / ±Infinity / exact
rationals), header maps become `ReqHeaders`, and the stateful token
lifecycle becomes explicit state passing.  Fallible operations return
`Option` or `Except`.  All definitions are executable.
-/

set_option maxRecDepth 4000

/-- JSNum models a JavaScript number: NaN, the two infinities, or a finite
value (represented exactly as a rational; float rounding is not modelled). -/
inductive JSNum where
  | nan
  | inf
  | negInf
  | val (q : ℚ)
deriving DecidableEq, Repr

/-- JSValue models a JavaScript value as seen by the proxy: `undefined`,
`null`, booleans, numbers, strings, arrays and plain objects (an object is a
list of key/value pairs in property-insertion order). -/
inductive JSValue where
  | undefined
  | null
  | bool (b : Bool)
  | num (n : JSNum)
  | str (s : String)
  | arr (items : List JSValue)
  | obj (fields : List (String × JSValue))

/-- Model of `isObject` in server.mjs: `typeof value === "object" && value !== null`.
In JS both plain objects and arrays satisfy this. -/
def isObjectJS : JSValue → Bool
  | .obj _ => true
  | .arr _ => true
  | _ => false

/-- Model of `asString` in server.mjs: the value if it is a string, else `undefined`. -/
def asStringJS : JSValue → Option String
  | .str s => some s
  | _ => none

/-- Model of `isStringArray` in server.mjs. -/
def isStringArrayJS : JSValue → Bool
  | .arr xs => xs.all (fun v => match v with | .str _ => true | _ => false)
  | _ => false

/-- JS truthiness: `undefined`, `null`, `false`, `0`, `NaN` and `""` are falsy. -/
def jsTruthy : JSValue → Bool
  | .undefined => false
  | .null => false
  | .bool b => b
  | .num n =>
    match n with
    | .nan => false
    | .val q => decide (q ≠ 0)
    | _ => true
  | .str s => decide (s ≠ "")
  | .arr _ => true
  | .obj _ => true

/-- Whitespace recognised by JS `String.prototype.trim` and the regex class
in header parsing (ASCII whitespace plus the common Unicode space characters
and line terminators). -/
def isJsSpaceChar (c : Char) : Bool :=
  c = ' ' || c = '\t' || c = '\n' || c = '\r' ||
  c = Char.ofNat 0x0B || c = Char.ofNat 0x0C || c = Char.ofNat 0xA0 ||
  c = Char.ofNat 0x1680 ||
  (Char.ofNat 0x2000 ≤ c && c ≤ Char.ofNat 0x200A) ||
  c = Char.ofNat 0x2028 || c = Char.ofNat 0x2029 ||
  c = Char.ofNat 0x202F || c = Char.ofNat 0x205F ||
  c = Char.ofNat 0x3000 || c = Char.ofNat 0xFEFF

/-- Line terminators, which the `.` regex atom never matches in JS. -/
def isLineTermChar (c : Char) : Bool :=
  c = '\n' || c = '\r' || c = Char.ofNat 0x2028 || c = Char.ofNat 0x2029

/-- Model of JS `String.prototype.trim`. -/
def jsTrim (s : String) : String :=
  ⟨((s.data.dropWhile isJsSpaceChar).reverse.dropWhile isJsSpaceChar).reverse⟩

/-- Model of JS `String.prototype.trimEnd`. -/
def jsTrimEnd (s : String) : String :=
  ⟨(s.data.reverse.dropWhile isJsSpaceChar).reverse⟩

/-- ASCII lower-casing of one character (model of JS `toLowerCase`, which the
proxy only applies to ASCII model names and auth schemes). -/
def jsLowerChar (c : Char) : Char :=
  if 'A' ≤ c ∧ c ≤ 'Z' then Char.ofNat (c.toNat + 32) else c

/-- Model of JS `String.prototype.toLowerCase` (ASCII). -/
def jsToLower (s : String) : String :=
  ⟨s.data.map jsLowerChar⟩

/-- `s.trim().toLowerCase()` as used on model names. -/
def jsTrimLower (s : String) : String :=
  jsToLower (jsTrim s)

/-- Split a character list at every occurrence of `sep` (model of JS
`String.prototype.split` with a one-character separator). -/
def splitCharAux (sep : Char) : List Char → List Char → List String
  | [], acc => [⟨acc.reverse⟩]
  | c :: rest, acc =>
    if c = sep then (⟨acc.reverse⟩ : String) :: splitCharAux sep rest []
    else splitCharAux sep rest (c :: acc)

/-- `s.split(sep)` for a one-character separator. -/
def strSplitOnChar (sep : Char) (s : String) : List String :=
  splitCharAux sep s.data []

/-- Does `s` start with `pre` (model of JS `String.prototype.startsWith`). -/
def strStartsWith (s pre : String) : Bool :=
  decide (s.data.take pre.data.length = pre.data)

/-- Drop the first `n` characters (model of JS `String.prototype.slice(n)`). -/
def strDropChars (s : String) (n : Nat) : String :=
  ⟨s.data.drop n⟩

/-- Parse a canonical decimal numeral (used for array index lookup). -/
def strToNatDec (s : String) : Option Nat :=
  if s.data ≠ [] ∧ s.data.all (fun c => '0' ≤ c ∧ c ≤ '9') then
    some (s.data.foldl (fun acc c => acc * 10 + (c.toNat - 48)) 0)
  else none

/-- Property lookup on an object-field list: first binding wins (the lists we
build never hold duplicate keys). Missing keys read as `undefined`, as in JS. -/
def objGet (fields : List (String × JSValue)) (k : String) : JSValue :=
  match fields.find? (fun p => p.1 = k) with
  | some p => p.2
  | none => .undefined

/-- Property assignment `o[k] = v` on an object-field list: an existing key
keeps its position and gets the new value, a new key is appended (JS
property-insertion order). -/
def setField (fields : List (String × JSValue)) (k : String) (v : JSValue) :
    List (String × JSValue) :=
  if fields.any (fun p => p.1 = k) then
    fields.map (fun p => if p.1 = k then (k, v) else p)
  else
    fields ++ [(k, v)]

/-- Property access `v[k]` on an arbitrary JS value: object field, canonical
array index, else `undefined`. -/
def jsGet (v : JSValue) (k : String) : JSValue :=
  match v with
  | .obj fields => objGet fields k
  | .arr xs =>
    match strToNatDec k with
    | some i => if k = toString i ∧ i < xs.length then xs.getD i .undefined else .undefined
    | none => .undefined
  | _ => .undefined

/-- Object spread `{...raw}`: fields of an object, index-keyed entries of an
array or string, nothing for primitives. -/
def jsSpread (raw : JSValue) : List (String × JSValue) :=
  match raw with
  | .obj fields => fields
  | .arr xs => (xs.enum.map (fun p => (toString p.1, p.2)))
  | .str s => (s.data.enum.map (fun p => (toString p.1, JSValue.str ⟨[p.2]⟩)))
  | _ => []

/-! ### Base64 and UTF-8 decoding (models of `Buffer.from(x, "base64").toString("utf8")`) -/

/-- Value of one base64 character. Node's decoder accepts both the standard
and the URL-safe alphabet and skips everything else. -/
def b64Val (c : Char) : Option Nat :=
  if 'A' ≤ c ∧ c ≤ 'Z' then some (c.toNat - 65)
  else if 'a' ≤ c ∧ c ≤ 'z' then some (c.toNat - 97 + 26)
  else if '0' ≤ c ∧ c ≤ '9' then some (c.toNat - 48 + 52)
  else if c = '+' ∨ c = '-' then some 62
  else if c = '/' ∨ c = '_' then some 63
  else none

/-- Regroup 6-bit base64 values into bytes; a trailing group of 2 or 3 values
contributes 1 or 2 bytes, a lone value is dropped (forgiving decoder). -/
def b64Groups : List Nat → List Nat
  | a :: b :: c :: d :: rest =>
    (a * 4 + b / 16) :: ((b % 16) * 16 + c / 4) :: ((c % 4) * 64 + d) :: b64Groups rest
  | [a, b] => [a * 4 + b / 16]
  | [a, b, c] => [a * 4 + b / 16, (b % 16) * 16 + c / 4]
  | _ => []

/-- Model of Node's forgiving base64 decoding: non-alphabet characters
(including `=` padding) are skipped, it never fails. -/
def base64DecodeBytes (s : String) : List Nat :=
  b64Groups (s.data.filterMap b64Val)

/-- One decoding step helper: is a byte a UTF-8 continuation byte. -/
def isUtf8Cont (b : Nat) : Bool := 0x80 ≤ b && b ≤ 0xBF

/-- Lossy UTF-8 decoding (model of `buffer.toString("utf8")`): malformed
sequences become U+FFFD instead of failing. -/
def utf8DecodeAux : Nat → List Nat → List Char
  | 0, _ => []
  | _, [] => []
  | fuel + 1, b :: rest =>
    if b < 0x80 then Char.ofNat b :: utf8DecodeAux fuel rest
    else if 0xC2 ≤ b ∧ b ≤ 0xDF then
      match rest with
      | b2 :: r2 =>
        if isUtf8Cont b2 then
          Char.ofNat ((b - 0xC0) * 64 + (b2 - 0x80)) :: utf8DecodeAux fuel r2
        else Char.ofNat 0xFFFD :: utf8DecodeAux fuel rest
      | [] => [Char.ofNat 0xFFFD]
    else if 0xE0 ≤ b ∧ b ≤ 0xEF then
      match rest with
      | b2 :: b3 :: r2 =>
        if isUtf8Cont b2 ∧ isUtf8Cont b3 then
          let code := (b - 0xE0) * 4096 + (b2 - 0x80) * 64 + (b3 - 0x80)
          if 0x800 ≤ code ∧ ¬ (0xD800 ≤ code ∧ code ≤ 0xDFFF) then
            Char.ofNat code :: utf8DecodeAux fuel r2
          else Char.ofNat 0xFFFD :: utf8DecodeAux fuel rest
        else Char.ofNat 0xFFFD :: utf8DecodeAux fuel rest
      | _ => Char.ofNat 0xFFFD :: utf8DecodeAux fuel rest
    else if 0xF0 ≤ b ∧ b ≤ 0xF4 then
      match rest with
      | b2 :: b3 :: b4 :: r2 =>
        if isUtf8Cont b2 ∧ isUtf8Cont b3 ∧ isUtf8Cont b4 then
          let code := (b - 0xF0) * 262144 + (b2 - 0x80) * 4096 + (b3 - 0x80) * 64 + (b4 - 0x80)
          if 0x10000 ≤ code ∧ code ≤ 0x10FFFF then
            Char.ofNat code :: utf8DecodeAux fuel r2
          else Char.ofNat 0xFFFD :: utf8DecodeAux fuel rest
        else Char.ofNat 0xFFFD :: utf8DecodeAux fuel rest
      | _ => Char.ofNat 0xFFFD :: utf8DecodeAux fuel rest
    else Char.ofNat 0xFFFD :: utf8DecodeAux fuel rest

/-- `Buffer.from(s, "base64").toString("utf8")`. -/
def base64ToUtf8 (s : String) : String :=
  let bytes := base64DecodeBytes s
  ⟨utf8DecodeAux (bytes.length + 1) bytes⟩

/-- Model of `toBase64` in server.mjs: URL-safe alphabet to standard alphabet
plus `=` padding to a multiple of 4. -/
def toBase64 (base64url : String) : String :=
  let normalized := base64url.data.map
    (fun c => if c = '-' then '+' else if c = '_' then '/' else c)
  let padLength := (4 - normalized.length % 4) % 4
  ⟨normalized ++ List.replicate padLength '='⟩

/-! ### A model of `JSON.parse` -/

/-- JSON insignificant whitespace. -/
def isJsonWs (c : Char) : Bool :=
  c = ' ' || c = '\t' || c = '\n' || c = '\r'

/-- Skip JSON whitespace. -/
def skipJsonWs (cs : List Char) : List Char :=
  cs.dropWhile isJsonWs

/-- Hex digit value. -/
def hexVal (c : Char) : Option Nat :=
  if '0' ≤ c ∧ c ≤ '9' then some (c.toNat - 48)
  else if 'a' ≤ c ∧ c ≤ 'f' then some (c.toNat - 97 + 10)
  else if 'A' ≤ c ∧ c ≤ 'F' then some (c.toNat - 65 + 10)
  else none

/-- Parse the body of a JSON string literal (after the opening quote),
handling escapes; surrogate pairs in `\uXXXX` escapes are combined, lone
surrogates become U+FFFD (JS strings are UTF-16; Lean chars are scalars). -/
def parseStringAux : Nat → List Char → List Char → Option (String × List Char)
  | 0, _, _ => none
  | fuel + 1, acc, cs =>
    match cs with
    | [] => none
    | c :: r =>
      if c = Char.ofNat 34 then some (⟨acc.reverse⟩, r)
      else if c = '\\' then
        match r with
        | [] => none
        | e :: r2 =>
          if e = Char.ofNat 34 then parseStringAux fuel (Char.ofNat 34 :: acc) r2
          else if e = '\\' then parseStringAux fuel ('\\' :: acc) r2
          else if e = '/' then parseStringAux fuel ('/' :: acc) r2
          else if e = 'b' then parseStringAux fuel (Char.ofNat 8 :: acc) r2
          else if e = 'f' then parseStringAux fuel (Char.ofNat 12 :: acc) r2
          else if e = 'n' then parseStringAux fuel ('\n' :: acc) r2
          else if e = 'r' then parseStringAux fuel ('\r' :: acc) r2
          else if e = 't' then parseStringAux fuel ('\t' :: acc) r2
          else if e = 'u' then
            match r2 with
            | h1 :: h2 :: h3 :: h4 :: r3 =>
              match hexVal h1, hexVal h2, hexVal h3, hexVal h4 with
              | some a, some b, some c1, some d =>
                let code := a * 4096 + b * 256 + c1 * 16 + d
                if 0xD800 ≤ code ∧ code ≤ 0xDBFF then
                  match r3 with
                  | '\\' :: 'u' :: g1 :: g2 :: g3 :: g4 :: r4 =>
                    match hexVal g1, hexVal g2, hexVal g3, hexVal g4 with
                    | some a2, some b2, some c2, some d2 =>
                      let low := a2 * 4096 + b2 * 256 + c2 * 16 + d2
                      if 0xDC00 ≤ low ∧ low ≤ 0xDFFF then
                        let combined := 0x10000 + (code - 0xD800) * 1024 + (low - 0xDC00)
                        parseStringAux fuel (Char.ofNat combined :: acc) r4
                      else parseStringAux fuel (Char.ofNat 0xFFFD :: acc) r3
                    | _, _, _, _ => parseStringAux fuel (Char.ofNat 0xFFFD :: acc) r3
                  | _ => parseStringAux fuel (Char.ofNat 0xFFFD :: acc) r3
                else if 0xDC00 ≤ code ∧ code ≤ 0xDFFF then
                  parseStringAux fuel (Char.ofNat 0xFFFD :: acc) r3
                else parseStringAux fuel (Char.ofNat code :: acc) r3
              | _, _, _, _ => none
            | _ => none
          else none
      else if c.toNat < 0x20 then none
      else parseStringAux fuel (c :: acc) r

/-- Take a run of decimal digits, returning its value, its length and the rest. -/
def takeDigits (cs : List Char) : Nat × Nat × List Char :=
  let digits := cs.takeWhile (fun c => '0' ≤ c ∧ c ≤ '9')
  (digits.foldl (fun acc c => acc * 10 + (c.toNat - 48)) 0, digits.length, cs.dropWhile (fun c => '0' ≤ c ∧ c ≤ '9'))

/-- Parse a JSON number literal (grammar: `-? int frac? exp?`), returning its
exact rational value. -/
def parseJsonNumber (cs : List Char) : Option (ℚ × List Char) :=
  let signed := match cs with
    | '-' :: r => some (true, r)
    | _ => some (false, cs)
  match signed with
  | some (neg, cs1) =>
    let intPart : Option (Nat × List Char) :=
      match cs1 with
      | '0' :: r => some (0, r)
      | c :: _ =>
        if '1' ≤ c ∧ c ≤ '9' then
          let (v, len, r) := takeDigits cs1
          if len = 0 then none else some (v, r)
        else none
      | [] => none
    match intPart with
    | none => none
    | some (iv, cs2) =>
      let fracPart : Option (Nat × Nat × List Char) :=
        match cs2 with
        | '.' :: r =>
          let (fv, flen, r2) := takeDigits r
          if flen = 0 then none else some (fv, flen, r2)
        | _ => some (0, 0, cs2)
      match fracPart with
      | none => none
      | some (fv, flen, cs3) =>
        let expPart : Option (Int × List Char) :=
          match cs3 with
          | c :: r =>
            if c = 'e' ∨ c = 'E' then
              let (esign, r2) := match r with
                | '+' :: rr => ((1 : Int), rr)
                | '-' :: rr => ((-1 : Int), rr)
                | _ => ((1 : Int), r)
              let (ev, elen, r3) := takeDigits r2
              if elen = 0 then none else some (esign * (ev : Int), r3)
            else some (0, cs3)
          | [] => some (0, cs3)
        match expPart with
        | none => none
        | some (ev, cs4) =>
          let mantissa : ℚ := (iv : ℚ) + (fv : ℚ) / ((10 : ℚ) ^ flen)
          let value : ℚ := (if neg then -mantissa else mantissa) * (10 : ℚ) ^ ev
          some (value, cs4)
  | none => none

mutual

/-- Parse one JSON value (fuel-indexed model of `JSON.parse`'s grammar). -/
def parseJsonVal : Nat → List Char → Option (JSValue × List Char)
  | 0, _ => none
  | fuel + 1, cs =>
    match skipJsonWs cs with
    | 'n' :: 'u' :: 'l' :: 'l' :: r => some (.null, r)
    | 't' :: 'r' :: 'u' :: 'e' :: r => some (.bool true, r)
    | 'f' :: 'a' :: 'l' :: 's' :: 'e' :: r => some (.bool false, r)
    | c :: r =>
      if c = Char.ofNat 34 then
        match parseStringAux (r.length + 1) [] r with
        | some (s, r2) => some (.str s, r2)
        | none => none
      else if c = '[' then
        match skipJsonWs r with
        | ']' :: r2 => some (.arr [], r2)
        | r1 => parseJsonElems fuel r1 []
      else if c = Char.ofNat 0x7B then
        match skipJsonWs r with
        | r1 =>
          match r1 with
          | c2 :: r2 =>
            if c2 = Char.ofNat 0x7D then some (.obj [], r2)
            else parseJsonMembers fuel r1 []
          | [] => none
      else
        match parseJsonNumber (c :: r) with
        | some (q, r2) => some (.num (.val q), r2)
        | none => none
    | [] => none

/-- Parse the elements of a non-empty JSON array. -/
def parseJsonElems : Nat → List Char → List JSValue → Option (JSValue × List Char)
  | 0, _, _ => none
  | fuel + 1, cs, acc =>
    match parseJsonVal fuel cs with
    | some (v, r) =>
      match skipJsonWs r with
      | ',' :: r2 => parseJsonElems fuel r2 (acc ++ [v])
      | ']' :: r2 => some (.arr (acc ++ [v]), r2)
      | _ => none
    | none => none

/-- Parse the members of a non-empty JSON object; duplicate keys follow JS
semantics (last value wins, first position kept). -/
def parseJsonMembers : Nat → List Char → List (String × JSValue) →
    Option (JSValue × List Char)
  | 0, _, _ => none
  | fuel + 1, cs, acc =>
    match skipJsonWs cs with
    | c :: r =>
      if c = Char.ofNat 34 then
        match parseStringAux (r.length + 1) [] r with
        | some (k, r2) =>
          match skipJsonWs r2 with
          | ':' :: r3 =>
            match parseJsonVal fuel r3 with
            | some (v, r4) =>
              match skipJsonWs r4 with
              | ',' :: r5 => parseJsonMembers fuel r5 (setField acc k v)
              | c2 :: r5 =>
                if c2 = Char.ofNat 0x7D then some (.obj (setField acc k v), r5)
                else none
              | [] => none
            | none => none
          | _ => none
        | none => none
      else none
    | [] => none

end

/-- Model of `JSON.parse`: `none` models a thrown `SyntaxError`. -/
def jsonParse (s : String) : Option JSValue :=
  match parseJsonVal (2 * s.length + 2) s.data with
  | some (v, rest) => if skipJsonWs rest = [] then some v else none
  | none => none

/-! ### Token Codec (server.mjs `decodeJwtPayload`, `extractAccountId`) -/

/-- Model of `decodeJwtPayload` (server.mjs lines 90-100): split on `.`,
require at least 2 segments, base64-decode the second segment, parse it as
JSON and require an object; every failure yields `none` (the source wraps the
body in try/catch and returns `null`). -/
def decodeJwtPayload (token : String) : Option JSValue :=
  let parts := strSplitOnChar (Char.ofNat 46) token
  if parts.length < 2 then none
  else
    let json := base64ToUtf8 (toBase64 ((parts.get? 1).getD ""))
    match jsonParse json with
    | some parsed => if isObjectJS parsed then some parsed else none
    | none => none

/-- Filter out the empty string, modelling `if (s) return s` JS truthiness on
an optional string. -/
def strTruthy : Option String → Option String
  | some s => if s = "" then none else some s
  | none => none

/-- Model of `extractAccountIdFromClaims` (server.mjs lines 102-122): the
direct `chatgpt_account_id` claim, else the nested namespaced claim, else the
`id` of the first entry of `organizations`. -/
def extractAccountIdFromClaims (claims : JSValue) : Option String :=
  match strTruthy (asStringJS (jsGet claims "chatgpt_account_id")) with
  | some direct => some direct
  | none =>
    let authClaim := jsGet claims "https://api.openai.com/auth"
    match (if isObjectJS authClaim then
             strTruthy (asStringJS (jsGet authClaim "chatgpt_account_id"))
           else none) with
    | some nested => some nested
    | none =>
      match jsGet claims "organizations" with
      | .arr (first :: _) =>
        if isObjectJS first then strTruthy (asStringJS (jsGet first "id")) else none
      | _ => none

/-- Model of `extractAccountId` (server.mjs lines 124-129); the empty string
stands for a missing (`undefined`) token argument, matching `if (!token)`. -/
def extractAccountId (token : String) : Option String :=
  if token = "" then none
  else
    match decodeJwtPayload token with
    | some claims => extractAccountIdFromClaims claims
    | none => none

/-! ### Token Store and Refresher -/

/-- The single mutable credential record (`tokenState` in server.mjs,
`TokenData` in the worker). Timestamps are epoch milliseconds as exact
rationals. -/
structure TokenState where
  accessToken : String
  refreshToken : String
  expiresAt : ℚ
  accountId : Option String
deriving DecidableEq, Repr

/-- What a call to `getValidToken` does: return the cached state with no I/O,
or invoke a refresh with the given refresh token. -/
inductive GetValidStep where
  | cached (st : TokenState)
  | refreshWith (refreshToken : String)
deriving DecidableEq, Repr

/-- Model of the Node `getValidToken` (server.mjs lines 391-396): the cached
state is used only when the access token is non-empty (JS truthiness of
`tokenState.accessToken`) and `expiresAt` exceeds now + 60 000 ms. -/
def getValidToken (st : TokenState) (now : ℚ) : GetValidStep :=
  if st.accessToken ≠ "" ∧ st.expiresAt > now + 60000 then .cached st
  else .refreshWith st.refreshToken

/-- Model of the worker `getValidToken` (server.mjs lines 758-766): any cached
record with `expiresAt` beyond now + 60 000 ms is returned; otherwise refresh
with the cached refresh token, falling back to the environment one. -/
def getValidTokenWorker (cached : Option TokenState) (now : ℚ)
    (envRefreshToken : String) : GetValidStep :=
  match cached with
  | some st =>
    if st.expiresAt > now + 60000 then .cached st
    else .refreshWith (if st.refreshToken ≠ "" then st.refreshToken else envRefreshToken)
  | none => .refreshWith envRefreshToken

/-- Model of JS `Number(string)` (`stringToNumber`): trimmed empty string is
0, `Infinity` forms, hex literals, or a decimal literal; anything else is NaN. -/
def strDecimalLiteral (cs : List Char) : Option ℚ :=
  let (neg, cs1) := match cs with
    | '-' :: r => (true, r)
    | '+' :: r => (false, r)
    | _ => (false, cs)
  let (iv, ilen, cs2) := takeDigits cs1
  let (fv, flen, cs3) := match cs2 with
    | '.' :: r =>
      let (v, l, r2) := takeDigits r
      (v, l, r2)
    | _ => (0, 0, cs2)
  if ilen = 0 ∧ flen = 0 then none
  else
    let (ev, cs4) : Int × List Char := match cs3 with
      | c :: r =>
        if c = 'e' ∨ c = 'E' then
          let (esign, r2) := match r with
            | '+' :: rr => ((1 : Int), rr)
            | '-' :: rr => ((-1 : Int), rr)
            | _ => ((1 : Int), r)
          let (v, l, r3) := takeDigits r2
          if l = 0 then (0, cs3) else (esign * (v : Int), r3)
        else (0, cs3)
      | [] => (0, cs3)
    if cs4 = [] then
      let mantissa : ℚ := (iv : ℚ) + (fv : ℚ) / ((10 : ℚ) ^ flen)
      some ((if neg then -mantissa else mantissa) * (10 : ℚ) ^ ev)
    else none

/-- Model of JS `Number()` applied to a string. -/
def stringToNumber (s : String) : JSNum :=
  let t := jsTrim s
  if t = "" then .val 0
  else if t = "Infinity" ∨ t = "+Infinity" then .inf
  else if t = "-Infinity" then .negInf
  else
    match t.data with
    | '0' :: 'x' :: r =>
      if r ≠ [] ∧ r.all (fun c => (hexVal c).isSome) then
        .val ((r.foldl (fun acc c => acc * 16 + ((hexVal c).getD 0)) 0 : Nat) : ℚ)
      else .nan
    | cs =>
      match strDecimalLiteral cs with
      | some q => .val q
      | none => .nan

/-- Model of JS `Number()` (ToNumber). The coercion of nested arrays and
objects goes through ToPrimitive/join in JS; the proxy only ever applies this
to a JSON `expires_in` field, and composite corner cases are approximated with
the single-element-array rule and NaN. -/
def jsToNumber : JSValue → JSNum
  | .undefined => .nan
  | .null => .val 0
  | .bool b => .val (if b then 1 else 0)
  | .num n => n
  | .str s => stringToNumber s
  | .arr [] => .val 0
  | .arr [x] =>
    match x with
    | .null => .val 0
    | .undefined => .val 0
    | .str s => stringToNumber s
    | .num n => n
    | _ => .nan
  | .arr _ => .nan
  | .obj _ => .nan

/-- Result of the refresh call once the issuer's JSON payload is in hand:
model of `refreshAccessToken` (server.mjs lines 354-389) from
`const payload = await response.json()` on. `Except.error` models a thrown
`Error`. `now` is `Date.now()` and `envAccountId` is `CHATGPT_ACCOUNT_ID`. -/
def refreshTokenUpdate (payload : JSValue) (oldRefreshToken : String) (now : ℚ)
    (envAccountId : Option String) : Except String TokenState :=
  let accessToken := (asStringJS (jsGet payload "access_token")).getD ""
  if accessToken = "" then .error "token refresh failed: missing access_token"
  else
    let newRefreshToken := match asStringJS (jsGet payload "refresh_token") with
      | some s => if s = "" then oldRefreshToken else s
      | none => oldRefreshToken
    let expiresInRaw := jsGet payload "expires_in"
    let expiresIn := jsToNumber
      (if jsTruthy expiresInRaw then expiresInRaw else .num (.val 3600))
    let safeExpiresIn : ℚ := match expiresIn with
      | .val q => if 0 < q then q else 3600
      | _ => 3600
    let idToken := (asStringJS (jsGet payload "id_token")).getD ""
    let accountId := match extractAccountId idToken with
      | some a => some a
      | none =>
        match extractAccountId accessToken with
        | some a => some a
        | none => envAccountId
    .ok { accessToken := accessToken
          refreshToken := newRefreshToken
          expiresAt := now + safeExpiresIn * 1000
          accountId := accountId }

/-! ### Request Normalizer (server.mjs lines 131-200) -/

def DEFAULT_MODEL_ALIAS : String := "gpt-5.3-codex-high"

def DEFAULT_UPSTREAM_MODEL : String := "gpt-5.3-codex"

def DEFAULT_REASONING_EFFORT : String := "high"

def DEFAULT_INSTRUCTIONS : String :=
  "You are Codex, a coding agent based on GPT-5. Follow the user request and keep responses concise."

/-- The fixed set of high-effort aliases in `normalizeCodexModel`. -/
def highAliases : List String :=
  ["gpt-5.3-codex-high", "gpt-5.3-codex:high", "gpt-5.3-codex-high-reasoning",
   "codex-5.3-high"]

/-- Model of `normalizeCodexModel` (server.mjs lines 131-143). -/
def normalizeCodexModel (model : JSValue) : String :=
  match asStringJS model with
  | some s =>
    let requested := jsTrimLower s
    if requested = "" then DEFAULT_UPSTREAM_MODEL
    else if requested ∈ highAliases then DEFAULT_UPSTREAM_MODEL
    else requested
  | none => DEFAULT_UPSTREAM_MODEL

/-- Model of `textToInputMessage` (server.mjs lines 145-151). -/
def textToInputMessage (text : String) : JSValue :=
  .obj [("type", .str "message"), ("role", .str "user"),
        ("content", .arr [.obj [("type", .str "input_text"), ("text", .str text)]])]

/-- One `messages` entry converted by `normalizeInput`'s chat-style loop:
objects with a string `content` become a role-tagged message, everything else
is skipped. -/
def convertChatMessage (message : JSValue) : Option JSValue :=
  if isObjectJS message then
    match asStringJS (jsGet message "content") with
    | some text =>
      let role := match asStringJS (jsGet message "role") with
        | some r => if r = "" then "user" else r
        | none => "user"
      some (.obj [("type", .str "message"), ("role", .str role),
                  ("content", .arr [.obj [("type", .str "input_text"), ("text", .str text)]])])
    | none => none
  else none

/-- The `messages`-array fallback and default greeting of `normalizeInput`. -/
def normalizeInputFallback (body : List (String × JSValue)) : List JSValue :=
  match objGet body "messages" with
  | .arr messages =>
    let converted := messages.filterMap convertChatMessage
    if converted.isEmpty then [textToInputMessage "Hello"] else converted
  | _ => [textToInputMessage "Hello"]

/-- Model of `normalizeInput` (server.mjs lines 153-175): an `input` array is
used verbatim, a non-blank `input` string is wrapped, else the `messages`
conversion, else a single default greeting message. -/
def normalizeInput (body : List (String × JSValue)) : List JSValue :=
  match objGet body "input" with
  | .arr xs => xs
  | other =>
    match asStringJS other with
    | some s =>
      if s ≠ "" ∧ jsTrim s ≠ "" then [textToInputMessage s]
      else normalizeInputFallback body
    | none => normalizeInputFallback body

/-- Is `needle` a substring (model of JS `String.prototype.includes`). -/
def jsIncludes (s needle : String) : Bool :=
  decide (needle.data <:+: s.data)

/-- Model of `normalizeReasoning` (server.mjs lines 177-182): an explicit
lower-cased non-empty `reasoning.effort` wins; both remaining source branches
return the fixed default effort. -/
def normalizeReasoning (body : List (String × JSValue)) (requestedModel : String) :
    JSValue :=
  let reasoning := objGet body "reasoning"
  let explicit := if isObjectJS reasoning then
      match asStringJS (jsGet reasoning "effort") with
      | some s => if jsToLower s = "" then none else some (jsToLower s)
      | none => none
    else none
  match explicit with
  | some e => .obj [("effort", .str e)]
  | none =>
    if jsIncludes requestedModel "high" then .obj [("effort", .str DEFAULT_REASONING_EFFORT)]
    else .obj [("effort", .str DEFAULT_REASONING_EFFORT)]

/-- `requestedModel` in `normalizeRequestBody` (server.mjs line 186):
`asString(body.model)?.trim().toLowerCase() || DEFAULT_MODEL_ALIAS`. -/
def requestedModelOf (raw : JSValue) : String :=
  match asStringJS (objGet (if isObjectJS raw then jsSpread raw else []) "model") with
  | some s => if jsTrimLower s = "" then DEFAULT_MODEL_ALIAS else jsTrimLower s
  | none => DEFAULT_MODEL_ALIAS

/-- The body after the `model` and `instructions` assignments of
`normalizeRequestBody` (server.mjs lines 185-189), which is the object
`normalizeInput` and `normalizeReasoning` read from. -/
def bodyAfterInstructions (raw : JSValue) : List (String × JSValue) :=
  let body0 := if isObjectJS raw then jsSpread raw else []
  let body1 := setField body0 "model"
    (.str (normalizeCodexModel (.str (requestedModelOf raw))))
  let instructions := match asStringJS (objGet body1 "instructions") with
    | some s => if jsTrim s = "" then DEFAULT_INSTRUCTIONS else jsTrim s
    | none => DEFAULT_INSTRUCTIONS
  setField body1 "instructions" (.str instructions)

/-- Model of `normalizeRequestBody` (server.mjs lines 184-200), the Node
variant. The result is the field list of the normalized body object. -/
def normalizeRequestBody (raw : JSValue) : List (String × JSValue) :=
  let body2 := bodyAfterInstructions raw
  let body3 := setField body2 "input" (.arr (normalizeInput body2))
  let body4 := setField body3 "reasoning" (normalizeReasoning body3 (requestedModelOf raw))
  let body5 := setField body4 "tools"
    (match objGet body4 "tools" with | .arr xs => .arr xs | _ => .arr [])
  let toolChoice := match asStringJS (objGet body5 "tool_choice") with
    | some s => if s = "" then "auto" else s
    | none => "auto"
  let body6 := setField body5 "tool_choice" (.str toolChoice)
  let body7 := setField body6 "parallel_tool_calls"
    (.bool (match objGet body6 "parallel_tool_calls" with | .bool b => b | _ => true))
  let body8 := setField body7 "include"
    (if isStringArrayJS (objGet body7 "include") then objGet body7 "include" else .arr [])
  let body9 := setField body8 "store" (.bool false)
  setField body9 "stream" (.bool true)

/-! ### SSE Aggregator (server.mjs lines 202-264) -/

/-- One parsed SSE event: label and JSON payload. -/
structure SSEEvent where
  event : String
  data : JSValue

/-- Split on `/\r?\n/` as in `text.split(/\r?\n/)`: `\n` and `\r\n` are line
breaks, a lone `\r` is ordinary content (fuel-indexed; one character is
consumed per step). -/
def splitSseLines : Nat → List Char → List Char → List String
  | 0, _, acc => [⟨acc.reverse⟩]
  | _, [], acc => [⟨acc.reverse⟩]
  | fuel + 1, c :: rest, acc =>
    if c = '\n' then (⟨acc.reverse⟩ : String) :: splitSseLines fuel rest []
    else if c = '\r' then
      match rest with
      | '\n' :: rest2 => (⟨acc.reverse⟩ : String) :: splitSseLines fuel rest2 []
      | _ => splitSseLines fuel rest (c :: acc)
    else splitSseLines fuel rest (c :: acc)

/-- Model of `parseSSE` (server.mjs lines 202-227): line oriented, `event:`
sets the current label (initially "message"), `data:` lines with a JSON
payload yield events, malformed payloads are silently dropped. -/
def parseSSE (text : String) : List SSEEvent :=
  let step := fun (st : String × List SSEEvent) (rawLine : String) =>
    let line := jsTrimEnd rawLine
    if line = "" then st
    else if strStartsWith line "event:" then (jsTrim (strDropChars line 6), st.2)
    else if strStartsWith line "data:" then
      let payload := jsTrim (strDropChars line 5)
      if payload = "" then st
      else
        match jsonParse payload with
        | some d => (st.1, st.2 ++ [⟨st.1, d⟩])
        | none => st
    else st
  ((splitSseLines (text.data.length + 1) text.data []).foldl step ("message", [])).2

/-- The aggregation accumulator of `buildNonStreamResponseFromSSE`. -/
structure Aggregated where
  completed : Option JSValue
  error : Option JSValue
  outputText : String
  eventCount : Nat

/-- One fold step of `buildNonStreamResponseFromSSE` (server.mjs lines
235-261) on a single event payload. Non-objects are skipped; the five typed
branches mirror the source's sequential `if` statements. -/
def aggregateStep (acc : Aggregated) (data : JSValue) : Aggregated :=
  if ¬ isObjectJS data then acc
  else
    let ty := asStringJS (jsGet data "type")
    let acc1 :=
      if ty = some "error" ∧ isObjectJS (jsGet data "error") then
        { acc with error := some (jsGet data "error") }
      else acc
    let acc2 :=
      if ty = some "response.output_text.delta" ∧ (asStringJS (jsGet data "delta")).isSome then
        { acc1 with outputText := acc1.outputText ++ (asStringJS (jsGet data "delta")).getD "" }
      else acc1
    let acc3 :=
      if ty = some "response.output_text.done" ∧ (asStringJS (jsGet data "text")).isSome ∧
          acc2.outputText = "" then
        { acc2 with outputText := (asStringJS (jsGet data "text")).getD "" }
      else acc2
    let acc4 :=
      if ty = some "response.completed" ∧ isObjectJS (jsGet data "response") then
        { acc3 with completed := some (jsGet data "response") }
      else acc3
    if ty = some "response.failed" ∧ isObjectJS (jsGet data "response") then
      { acc4 with
        completed := some (jsGet data "response")
        error := match acc4.error with
          | none =>
            if isObjectJS (jsGet (jsGet data "response") "error") then
              some (jsGet (jsGet data "response") "error")
            else none
          | some e => some e }
    else acc4

/-- Model of `buildNonStreamResponseFromSSE` (server.mjs lines 229-264). -/
def buildNonStreamResponseFromSSE (sseText : String) : Aggregated :=
  let events := parseSSE sseText
  let folded := events.foldl (fun acc e => aggregateStep acc e.data)
    { completed := none, error := none, outputText := "", eventCount := 0 }
  { folded with eventCount := events.length }

/-- The non-streaming reply the Node handler builds from an aggregation
result (server.mjs lines 526-550). -/
inductive NonStreamReply where
  | errorBody (error : JSValue) (outputText : String)
  | completedBody (completed : JSValue) (outputText : String)
  | inconclusive (eventCount : Nat) (raw : String)

/-- Response shaping of the Node handler for non-streaming clients
(server.mjs lines 529-550): an error result is a 400 with the error object
and partial text, a completed result is a 200, else the upstream status is
passed through with a diagnostic envelope. -/
def shapeNonStreamResponse (agg : Aggregated) (upstreamStatus : Nat) (raw : String) :
    Nat × NonStreamReply :=
  match agg.error with
  | some e => (400, .errorBody e agg.outputText)
  | none =>
    match agg.completed with
    | some c => (200, .completedBody c agg.outputText)
    | none => (upstreamStatus, .inconclusive agg.eventCount raw)

/-! ### Proxy authentication (server.mjs lines 266-327) -/

/-- Model of `normalizeSecretValue` (server.mjs lines 266-269): trim, then
strip one leading/trailing `"` pair, then one leading/trailing `'` pair (the
two global regex replaces each remove at most one leading and one trailing
quote). The `typeof value !== "string"` guard is handled by callers, which
pass optional strings. -/
def stripOuter (q : Char) (s : String) : String :=
  let l := s.data
  let l1 := match l with
    | c :: r => if c = q then r else l
    | [] => []
  let l2 := if l1.getLast? = some q then l1.dropLast else l1
  ⟨l2⟩

def normalizeSecretValue (value : String) : String :=
  stripOuter (Char.ofNat 39) (stripOuter (Char.ofNat 34) (jsTrim value))

/-- Capture group of `/^Scheme\s+(.+)$/i` applied to `s` (scheme given in
lower case): the scheme matched case-insensitively, then at least one
whitespace character, then the captured rest, which must be non-empty and
free of line terminators (`.` never matches those). When everything after
the scheme is whitespace, backtracking hands the last whitespace character
to the capture. -/
def schemeCapture (scheme : String) (s : String) : Option String :=
  let cs := s.data
  let n := scheme.length
  if (cs.take n).map jsLowerChar = scheme.data then
    let rest := cs.drop n
    let ws := rest.takeWhile isJsSpaceChar
    let cap := rest.dropWhile isJsSpaceChar
    if ws.isEmpty then none
    else if ¬ cap.isEmpty then
      if cap.all (fun c => ¬ isLineTermChar c) then some ⟨cap⟩ else none
    else
      match ws.getLast? with
      | some c => if 2 ≤ ws.length ∧ ¬ isLineTermChar c then some ⟨[c]⟩ else none
      | none => none
  else none

/-- `decoded.split(":", 2)` with `[user = "", pass = ""]` destructuring:
the part before the first colon and the part between the first and second
colon (empty when absent). -/
def basicUserPass (decoded : String) : String × String :=
  let parts := strSplitOnChar (Char.ofNat 58) decoded
  (parts.headD "", (parts.get? 1).getD "")

/-- The inbound headers the auth check looks at. -/
structure ReqHeaders where
  authorization : Option String
  xApiKey : Option String
  apiKey : Option String

/-- Model of `validateProxyAuth` (server.mjs lines 291-327): raw normalized
header, `Bearer` token, `Basic` user/password, then the `x-api-key` and
`api-key` headers, each compared (normalized) against the proxy secret. -/
def validateProxyAuth (h : ReqHeaders) (secret : String) : Bool :=
  let fromAuth := match h.authorization with
    | some authHeader =>
      let trimmed := jsTrim authHeader
      if trimmed.length > 0 then
        if normalizeSecretValue trimmed = secret then true
        else
          let bearerOk := match schemeCapture "bearer" trimmed with
            | some tok => decide (normalizeSecretValue tok = secret)
            | none => false
          if bearerOk then true
          else
            match schemeCapture "basic" trimmed with
            | some enc =>
              let decoded := base64ToUtf8 enc
              let up := basicUserPass decoded
              decide (normalizeSecretValue up.1 = secret) ||
                decide (normalizeSecretValue up.2 = secret)
            | none => false
      else false
    | none => false
  if fromAuth then true
  else
    let xOk := match h.xApiKey with
      | some x => decide (normalizeSecretValue x = secret)
      | none => false
    if xOk then true
    else
      match h.apiKey with
      | some k => decide (normalizeSecretValue k = secret)
      | none => false

/-- The status the Node handler sends when `validateProxyAuth` fails
(server.mjs lines 469-475): `none` means the request proceeds. -/
def proxyAuthGate (h : ReqHeaders) (secret : String) : Option Nat :=
  if validateProxyAuth h secret then none else some 401

/-! ### Proxy Orchestrator: token acquisition and the single 401 retry

The network is abstracted as oracles: the result of the initial
`getValidToken()` call, the HTTP status of the first upstream call, the
result of the forced `refreshAccessToken`/`refreshAndCacheTokens` call made
on a 401, and the status of the retried call. -/

structure TokenPhaseWorld where
  initialToken : Except String TokenState
  firstStatus : Nat
  forcedRefresh : Except String TokenState
  secondStatus : Nat

/-- Outcome of the token/upstream phase of a `/v1/responses` request. -/
inductive TokenPhaseResult where
  | tokenError (msg : String)
  | nodeInternalError (msg : String)
  | workerAuthError
  | relay (status : Nat) (token : TokenState)
deriving DecidableEq, Repr

/-- HTTP status each outcome carries back to the caller: 500 `token_error`
(both variants, server.mjs lines 489-494 and 806-820), 500 `internal_error`
(the Node catch-all, lines 554-556), 401 `authentication_error` (the worker
401-retry catch, lines 838-849), or the relayed upstream status. -/
def tokenPhaseStatus : TokenPhaseResult → Nat
  | .tokenError _ => 500
  | .nodeInternalError _ => 500
  | .workerAuthError => 401
  | .relay status _ => status

/-- Model of the Node handler's token phase (server.mjs lines 488-507): a
failing initial `getValidToken` is reported as a 500 `token_error`; a 401
from upstream triggers exactly one forced refresh and one retry, and a
throwing forced refresh propagates to the outer catch-all, which answers
500 `internal_error`. -/
def nodeTokenPhase (w : TokenPhaseWorld) : TokenPhaseResult :=
  match w.initialToken with
  | .error e => .tokenError e
  | .ok _ =>
    if w.firstStatus = 401 then
      match w.forcedRefresh with
      | .error e => .nodeInternalError e
      | .ok t2 => .relay w.secondStatus t2
    else
      match w.initialToken with
      | .ok t => .relay w.firstStatus t
      | .error e => .tokenError e

/-- Model of the worker handler's token phase (server.mjs lines 806-850):
identical except that a throwing forced refresh is caught and reported as a
401 `authentication_error`. -/
def workerTokenPhase (w : TokenPhaseWorld) : TokenPhaseResult :=
  match w.initialToken with
  | .error e => .tokenError e
  | .ok _ =>
    if w.firstStatus = 401 then
      match w.forcedRefresh with
      | .error _ => .workerAuthError
      | .ok t2 => .relay w.secondStatus t2
    else
      match w.initialToken with
      | .ok t => .relay w.firstStatus t
      | .error e => .tokenError e

/-- Number of upstream calls the Node handler issues (the worker issues the
same number): 0 when no token is available, 2 when the first call got a 401
and the forced refresh succeeded, else 1. -/
def upstreamCallCount (w : TokenPhaseWorld) : Nat :=
  match w.initialToken with
  | .error _ => 0
  | .ok _ =>
    if w.firstStatus = 401 then
      match w.forcedRefresh with
      | .error _ => 1
      | .ok _ => 2
    else 1

/-- Number of forced refresh calls (refreshes that bypass the expiry check):
1 exactly when the first upstream call returned 401. -/
def forcedRefreshCount (w : TokenPhaseWorld) : Nat :=
  match w.initialToken with
  | .error _ => 0
  | .ok _ => if w.firstStatus = 401 then 1 else 0

/-! ### Spec-side statements of individual claims -/

/-- The acceptance condition as the specification words it: after trimming
whitespace and stripping leading/trailing quotes, one of — the raw
`Authorization` header value, the token portion of a `Bearer <token>` header,
the user or password part of a `Basic` base64 header, or the
`x-api-key`/`api-key` header value — equals the configured proxy secret. -/
def specAuthAccepted (h : ReqHeaders) (secret : String) : Bool :=
  (match h.authorization with
   | some a =>
     decide (normalizeSecretValue a = secret) ||
     (match schemeCapture "bearer" (jsTrim a) with
      | some tok => decide (normalizeSecretValue tok = secret)
      | none => false) ||
     (match schemeCapture "basic" (jsTrim a) with
      | some enc =>
        decide (normalizeSecretValue (basicUserPass (base64ToUtf8 enc)).1 = secret) ||
        decide (normalizeSecretValue (basicUserPass (base64ToUtf8 enc)).2 = secret)
      | none => false)
   | none => false) ||
  (match h.xApiKey with
   | some x => decide (normalizeSecretValue x = secret)
   | none => false) ||
  (match h.apiKey with
   | some k => decide (normalizeSecretValue k = secret)
   | none => false)

/-- The `input` array the client supplied, when it supplied one: the value
`normalizeInput` reads through `body.input` after the spread. -/
def clientInputArray (raw : JSValue) : Option (List JSValue) :=
  match objGet (if isObjectJS raw then jsSpread raw else []) "input" with
  | .arr ys => some ys
  | _ => none

/-- A message object as produced by the normalizer: `type` is "message",
`role` is a string and `content` is an array. -/
def isInputMessage (v : JSValue) : Bool :=
  isObjectJS v &&
  (asStringJS (jsGet v "type") == some "message") &&
  (asStringJS (jsGet v "role")).isSome &&
  (match jsGet v "content" with | .arr _ => true | _ => false)

/-- The payload text `decodeJwtPayload` extracts from a token before JSON
parsing: the second dot-separated segment, base64url-decoded. -/
def jwtPayloadText (token : String) : String :=
  base64ToUtf8 (toBase64 (((strSplitOnChar (Char.ofNat 46) token).get? 1).getD ""))

/-- Sample SSE stream of three `response.output_text.delta` events. -/
def helloSSE : String :=
  "event: response.output_text.delta\ndata: \x7b\"type\":\"response.output_text.delta\",\"delta\":\"Hello\"\x7d\n\ndata: \x7b\"type\":\"response.output_text.delta\",\"delta\":\", \"\x7d\n\ndata: \x7b\"type\":\"response.output_text.delta\",\"delta\":\"world\"\x7d\n\n"

/-- Sample SSE stream with a single `response.failed` event carrying an
embedded `error` and no top-level `error` event. -/
def failedSSE : String :=
  "event: response.failed\ndata: \x7b\"type\":\"response.failed\",\"response\":\x7b\"id\":\"resp_1\",\"error\":\x7b\"message\":\"quota exceeded\"\x7d\x7d\x7d\n\n"

/-- Decidable equality for refresh results (used to evaluate the model on
concrete issuer payloads). -/
instance : DecidableEq (Except String TokenState) :=
  fun a b =>
    match a, b with
    | .ok x, .ok y =>
      if h : x = y then isTrue (by rw [h]) else isFalse (by simp [h])
    | .error x, .error y =>
      if h : x = y then isTrue (by rw [h]) else isFalse (by simp [h])
    | .ok _, .error _ => isFalse (by simp)
    | .error _, .ok _ => isFalse (by simp)

/-! ## Helper lemmas -/

theorem objGet_cons_of_ne (p : String × JSValue) (fs : List (String × JSValue))
    (k : String) (h : p.1 ≠ k) : objGet (p :: fs) k = objGet fs k := by
  unfold objGet
  rw [List.find?_cons_of_neg]
  simp [h]

theorem objGet_cons_self (p : String × JSValue) (fs : List (String × JSValue))
    (k : String) (h : p.1 = k) : objGet (p :: fs) k = p.2 := by
  unfold objGet
  rw [List.find?_cons_of_pos]
  simp [h]

theorem objGet_setField_self (fs : List (String × JSValue)) (k : String) (v : JSValue) :
    objGet (setField fs k v) k = v := by
  unfold setField
  by_cases h : fs.any (fun p => p.1 = k)
  · rw [if_pos h]
    induction fs with
    | nil => simp at h
    | cons p rest ih =>
      by_cases hp : p.1 = k
      · rw [List.map_cons, if_pos hp, objGet_cons_self _ _ _ rfl]
      · have h2 : rest.any (fun p => p.1 = k) = true := by
          simp only [List.any_cons] at h
          simpa [hp] using h
        rw [List.map_cons, if_neg hp, objGet_cons_of_ne _ _ _ hp]
        exact ih h2
  · rw [if_neg h]
    induction fs with
    | nil => exact objGet_cons_self _ _ _ rfl
    | cons p rest ih =>
      have hp : p.1 ≠ k := by
        intro hk
        exact h (by simp [List.any_cons, hk])
      have h2 : ¬ rest.any (fun p => p.1 = k) = true := by
        intro hr
        exact h (by simp [List.any_cons, hr])
      rw [List.cons_append, objGet_cons_of_ne _ _ _ hp]
      exact ih h2

theorem objGet_setField_ne (fs : List (String × JSValue)) (k' k : String) (v : JSValue)
    (h : k' ≠ k) : objGet (setField fs k' v) k = objGet fs k := by
  unfold setField
  by_cases ha : fs.any (fun p => p.1 = k')
  · rw [if_pos ha]
    clear ha
    induction fs with
    | nil => simp
    | cons p rest ih =>
      by_cases hp : p.1 = k'
      · rw [List.map_cons, if_pos hp, objGet_cons_of_ne _ _ _ h,
          objGet_cons_of_ne _ _ _ (by rw [hp]; exact h)]
        exact ih
      · by_cases hk : p.1 = k
        · rw [List.map_cons, if_neg hp, objGet_cons_self _ _ _ hk,
            objGet_cons_self _ _ _ hk]
        · rw [List.map_cons, if_neg hp, objGet_cons_of_ne _ _ _ hk,
            objGet_cons_of_ne _ _ _ hk]
          exact ih
  · rw [if_neg ha]
    clear ha
    induction fs with
    | nil =>
      rw [List.nil_append, objGet_cons_of_ne _ _ _ h]
    | cons p rest ih =>
      by_cases hk : p.1 = k
      · rw [List.cons_append, objGet_cons_self _ _ _ hk, objGet_cons_self _ _ _ hk]
      · rw [List.cons_append, objGet_cons_of_ne _ _ _ hk, objGet_cons_of_ne _ _ _ hk]
        exact ih

theorem dropWhile_dropWhile_same (p : Char → Bool) (l : List Char) :
    (l.dropWhile p).dropWhile p = l.dropWhile p := by
  induction l with
  | nil => rfl
  | cons a l ih =>
    by_cases h : p a
    · rw [List.dropWhile_cons_of_pos h]
      exact ih
    · rw [List.dropWhile_cons_of_neg h, List.dropWhile_cons_of_neg h]

theorem length_dropWhile_le_self (p : Char → Bool) (l : List Char) :
    (l.dropWhile p).length ≤ l.length := by
  induction l with
  | nil => simp
  | cons a l ih =>
    by_cases h : p a
    · rw [List.dropWhile_cons_of_pos h]
      exact le_trans ih (by simp)
    · rw [List.dropWhile_cons_of_neg h]

theorem dropWhile_of_self_head (p : Char → Bool) (l : List Char)
    (h : l.dropWhile p = l) :
    ((l.reverse.dropWhile p).reverse).dropWhile p = (l.reverse.dropWhile p).reverse := by
  cases l with
  | nil => rfl
  | cons c cs =>
    have hc : p c = false := by
      by_cases hp : p c
      · rw [List.dropWhile_cons_of_pos hp] at h
        have hlen := congrArg List.length h
        have hle := length_dropWhile_le_self p cs
        simp at hlen
        omega
      · exact Bool.eq_false_iff.mpr hp
    rw [List.reverse_cons, List.dropWhile_append]
    by_cases hemp : (cs.reverse.dropWhile p).isEmpty
    · rw [if_pos hemp]
      simp [hc]
    · rw [if_neg hemp]
      rw [List.reverse_append]
      simp only [List.reverse_cons, List.reverse_nil, List.nil_append, List.singleton_append]
      rw [List.dropWhile_cons_of_neg (by simp [hc])]

theorem jsTrim_idem (s : String) : jsTrim (jsTrim s) = jsTrim s := by
  unfold jsTrim
  have hA : (s.data.dropWhile isJsSpaceChar).dropWhile isJsSpaceChar
      = s.data.dropWhile isJsSpaceChar := dropWhile_dropWhile_same _ _
  have key := dropWhile_of_self_head isJsSpaceChar (s.data.dropWhile isJsSpaceChar) hA
  show (⟨_⟩ : String) = ⟨_⟩
  congr 1
  rw [String.data]
  rw [key, List.reverse_reverse, dropWhile_dropWhile_same]

theorem normalizeSecretValue_trim (a : String) :
    normalizeSecretValue (jsTrim a) = normalizeSecretValue a := by
  unfold normalizeSecretValue
  rw [jsTrim_idem]

/-! ## Claim C3: the `getValid` fast path -/

/-- C3 counterexample. The claim says every token state whose `expiresAt` is
more than 60 000 ms in the future is returned unchanged with no refresh; the
Node `getValidToken` additionally requires a non-empty access token, so the
state `{accessToken := "", refreshToken := "rt", expiresAt := 1000000}` at
time 0 triggers a refresh even though `expiresAt` is far in the future. -/
theorem c3_counterexample :
    getValidToken { accessToken := "", refreshToken := "rt", expiresAt := 1000000,
                    accountId := none } 0
      = .refreshWith "rt" ∧
    ((1000000 : ℚ) > 0 + 60000) := by
  constructor
  · rfl
  · norm_num

/-- C3 (amended): the Node `getValidToken` returns the state unchanged with
no refresh call when the access token is non-empty and `expiresAt` is more
than 60 000 ms after the current time; the worker `getValidToken` does so for
every cached state with such an `expiresAt`. -/
theorem c3_theorem :
    (∀ (st : TokenState) (now : ℚ), st.accessToken ≠ "" →
       st.expiresAt > now + 60000 → getValidToken st now = .cached st) ∧
    (∀ (st : TokenState) (now : ℚ) (envRefreshToken : String),
       st.expiresAt > now + 60000 →
       getValidTokenWorker (some st) now envRefreshToken = .cached st) := by
  constructor
  · intro st now h1 h2
    unfold getValidToken
    rw [if_pos ⟨h1, h2⟩]
  · intro st now ert h2
    show (if st.expiresAt > now + 60000 then GetValidStep.cached st
      else GetValidStep.refreshWith
        (if st.refreshToken ≠ "" then st.refreshToken else ert)) = GetValidStep.cached st
    rw [if_pos h2]

/-- C3 witness: `c3_theorem` applied to a concrete fresh token state. -/
theorem c3_witness :
    getValidToken { accessToken := "tok", refreshToken := "rt", expiresAt := 100000,
                    accountId := none } 0
      = .cached { accessToken := "tok", refreshToken := "rt", expiresAt := 100000,
                  accountId := none } ∧
    getValidTokenWorker
      (some { accessToken := "tok", refreshToken := "rt", expiresAt := 100000,
              accountId := none }) 0 "env"
      = .cached { accessToken := "tok", refreshToken := "rt", expiresAt := 100000,
                  accountId := none } := by
  constructor
  · exact c3_theorem.1 _ 0 (by decide) (by norm_num)
  · exact c3_theorem.2 _ 0 "env" (by norm_num)

/-! ## Claim C2: the single forced refresh and 401 retry -/

/-- C2 counterexample. The claim says a forced-refresh failure during the
401-retry path is returned to the caller as a 401 `authentication_error`; in
the Node handler the forced `refreshAccessToken` call is not wrapped in
try/catch, so its failure reaches the catch-all and is answered with a 500
`internal_error` instead. -/
theorem c2_counterexample :
    nodeTokenPhase
      { initialToken := .ok { accessToken := "at", refreshToken := "rt",
                              expiresAt := 0, accountId := none },
        firstStatus := 401,
        forcedRefresh := .error "refresh failed",
        secondStatus := 200 }
      = .nodeInternalError "refresh failed" ∧
    tokenPhaseStatus
      (nodeTokenPhase
        { initialToken := .ok { accessToken := "at", refreshToken := "rt",
                                expiresAt := 0, accountId := none },
          firstStatus := 401,
          forcedRefresh := .error "refresh failed",
          secondStatus := 200 }) = 500 ∧
    (500 : Nat) ≠ 401 := by
  refine ⟨rfl, rfl, by decide⟩

/-- C2 (amended): on a `/v1/responses` POST, a 401 from upstream causes
exactly one forced refresh and exactly one retry (never more than two
upstream calls and never more than one forced refresh); an initial
`getValidToken` failure is a 500 `token_error` in both variants; and a
forced-refresh failure during the 401-retry path is a 401
`authentication_error` in the worker variant but a 500 `internal_error` in
the Node variant. -/
theorem c2_theorem :
    (∀ w : TokenPhaseWorld, upstreamCallCount w ≤ 2 ∧ forcedRefreshCount w ≤ 1) ∧
    (∀ (w : TokenPhaseWorld) (t : TokenState), w.initialToken = .ok t →
       w.firstStatus ≠ 401 →
       nodeTokenPhase w = .relay w.firstStatus t ∧
       workerTokenPhase w = .relay w.firstStatus t ∧
       upstreamCallCount w = 1 ∧ forcedRefreshCount w = 0) ∧
    (∀ (w : TokenPhaseWorld) (t t2 : TokenState), w.initialToken = .ok t →
       w.firstStatus = 401 → w.forcedRefresh = .ok t2 →
       nodeTokenPhase w = .relay w.secondStatus t2 ∧
       workerTokenPhase w = .relay w.secondStatus t2 ∧
       upstreamCallCount w = 2 ∧ forcedRefreshCount w = 1) ∧
    (∀ (w : TokenPhaseWorld) (e : String), w.initialToken = .error e →
       nodeTokenPhase w = .tokenError e ∧ workerTokenPhase w = .tokenError e ∧
       tokenPhaseStatus (nodeTokenPhase w) = 500 ∧ upstreamCallCount w = 0) ∧
    (∀ (w : TokenPhaseWorld) (t : TokenState) (e : String),
       w.initialToken = .ok t → w.firstStatus = 401 → w.forcedRefresh = .error e →
       workerTokenPhase w = .workerAuthError ∧
       tokenPhaseStatus (workerTokenPhase w) = 401 ∧
       nodeTokenPhase w = .nodeInternalError e ∧
       tokenPhaseStatus (nodeTokenPhase w) = 500) := by
  refine ⟨?_, ?_, ?_, ?_, ?_⟩
  · intro w
    rcases w with ⟨it, fs, fr, ss⟩
    unfold upstreamCallCount forcedRefreshCount
    cases it with
    | error e => simp
    | ok t =>
      by_cases h : fs = 401
      · cases fr <;> simp [h]
      · simp [h]
  · intro w t hok hne
    unfold nodeTokenPhase workerTokenPhase upstreamCallCount forcedRefreshCount
    rw [hok]
    simp [hne]
  · intro w t t2 hok h401 hfr
    unfold nodeTokenPhase workerTokenPhase upstreamCallCount forcedRefreshCount
    rw [hok, hfr]
    simp [h401]
  · intro w e herr
    unfold nodeTokenPhase workerTokenPhase upstreamCallCount
    rw [herr]
    simp [tokenPhaseStatus]
  · intro w t e hok h401 hfr
    unfold nodeTokenPhase workerTokenPhase
    rw [hok, hfr]
    simp [h401, tokenPhaseStatus]

/-- C2 witness: `c2_theorem` applied to concrete worlds. -/
theorem c2_witness :
    nodeTokenPhase
      { initialToken := .ok { accessToken := "at", refreshToken := "rt",
                              expiresAt := 0, accountId := none },
        firstStatus := 200,
        forcedRefresh := .error "unused",
        secondStatus := 0 }
      = .relay 200 { accessToken := "at", refreshToken := "rt",
                     expiresAt := 0, accountId := none } ∧
    workerTokenPhase
      { initialToken := .ok { accessToken := "at", refreshToken := "rt",
                              expiresAt := 0, accountId := none },
        firstStatus := 401,
        forcedRefresh := .error "boom",
        secondStatus := 0 }
      = .workerAuthError := by
  constructor
  · exact (c2_theorem.2.1 _ _ rfl (by decide)).1
  · exact (c2_theorem.2.2.2.2 _ _ "boom" rfl rfl rfl).1

/-! ## Claim C7: refresh-token retention and expiry computation -/

/-- C7: on every successful refresh, the new state keeps the old refresh
token when the issuer supplied no (or an empty) refresh-token string and
takes the issuer's otherwise; `expiresAt` is now plus `expires_in` seconds
when that is a positive finite number, and now plus 3600 seconds when
`expires_in` is absent, non-positive or non-finite. -/
theorem c7_theorem (payload : JSValue) (oldRefreshToken : String) (now : ℚ)
    (envAccountId : Option String) (st : TokenState)
    (h : refreshTokenUpdate payload oldRefreshToken now envAccountId = .ok st) :
    ((asStringJS (jsGet payload "refresh_token") = none →
        st.refreshToken = oldRefreshToken) ∧
     (asStringJS (jsGet payload "refresh_token") = some "" →
        st.refreshToken = oldRefreshToken) ∧
     (∀ s, asStringJS (jsGet payload "refresh_token") = some s → s ≠ "" →
        st.refreshToken = s)) ∧
    ((jsGet payload "expires_in" = .undefined → st.expiresAt = now + 3600 * 1000) ∧
     (∀ q : ℚ, jsGet payload "expires_in" = .num (.val q) →
        st.expiresAt = if 0 < q then now + q * 1000 else now + 3600 * 1000) ∧
     ((jsGet payload "expires_in" = .num .nan ∨
       jsGet payload "expires_in" = .num .inf ∨
       jsGet payload "expires_in" = .num .negInf) →
        st.expiresAt = now + 3600 * 1000)) := by
  unfold refreshTokenUpdate at h
  dsimp only at h
  split at h
  · exact absurd h (by simp)
  · rw [Except.ok.injEq] at h
    subst h
    refine ⟨⟨?_, ?_, ?_⟩, ?_, ?_, ?_⟩
    · intro hr
      simp [hr]
    · intro hr
      simp [hr]
    · intro s hr hs
      simp [hr, hs]
    · intro hr
      simp [hr, jsTruthy, jsToNumber]
    · intro q hr
      by_cases hq : q = 0
      · subst hq
        simp [hr, jsTruthy, jsToNumber]
      · by_cases hpos : 0 < q
        · simp [hr, jsTruthy, jsToNumber, hq, hpos]
        · simp [hr, jsTruthy, jsToNumber, hq, hpos]
    · intro hr
      rcases hr with hr | hr | hr <;>
        simp [hr, jsTruthy, jsToNumber]

/-- C7 witness: `c7_theorem` applied to a concrete issuer payload carrying a
rotated refresh token and `expires_in` 7200 seconds at time 0. -/
theorem c7_witness :
    refreshTokenUpdate
        (.obj [("access_token", .str "at2"), ("refresh_token", .str "rt2"),
               ("expires_in", .num (.val 7200))]) "rt1" 0 none
      = .ok { accessToken := "at2", refreshToken := "rt2",
              expiresAt := (0 : ℚ) + 7200 * 1000, accountId := none } ∧
    ({ accessToken := "at2", refreshToken := "rt2",
       expiresAt := (0 : ℚ) + 7200 * 1000, accountId := none } : TokenState).refreshToken
      = "rt2" ∧
    ({ accessToken := "at2", refreshToken := "rt2",
       expiresAt := (0 : ℚ) + 7200 * 1000, accountId := none } : TokenState).expiresAt
      = 7200000 := by
  refine ⟨by rfl, ?_, ?_⟩
  · exact (c7_theorem
      (.obj [("access_token", .str "at2"), ("refresh_token", .str "rt2"),
             ("expires_in", .num (.val 7200))]) "rt1" 0 none
      { accessToken := "at2", refreshToken := "rt2",
        expiresAt := (0 : ℚ) + 7200 * 1000, accountId := none }
      (by rfl)).1.2.2 "rt2" rfl (by decide)
  · have h := (c7_theorem
      (.obj [("access_token", .str "at2"), ("refresh_token", .str "rt2"),
             ("expires_in", .num (.val 7200))]) "rt1" 0 none
      { accessToken := "at2", refreshToken := "rt2",
        expiresAt := (0 : ℚ) + 7200 * 1000, accountId := none }
      (by rfl)).2.2.1 7200 rfl
    rw [h, if_pos (by norm_num)]
    norm_num

/-! ## Claim C8: model resolution -/

/-- C8: model resolution lower-cases and trims the requested model string;
if the result is one of the fixed high-effort aliases it maps to the
canonical high-tier upstream id `gpt-5.3-codex`, otherwise the lower-cased,
trimmed string passes through unchanged; an absent model defaults to the
canonical alias and hence resolves to `gpt-5.3-codex`; in particular
`normalize({model:"gpt-5.3-codex-high"})` resolves to `gpt-5.3-codex`. -/
theorem c8_theorem :
    (∀ s : String, jsTrimLower s ∈ highAliases →
        normalizeCodexModel (.str s) = DEFAULT_UPSTREAM_MODEL) ∧
    (∀ s : String, jsTrimLower s ∉ highAliases → jsTrimLower s ≠ "" →
        normalizeCodexModel (.str s) = jsTrimLower s) ∧
    (∀ fields : List (String × JSValue),
        fields.find? (fun p => p.1 = "model") = none →
        objGet (normalizeRequestBody (.obj fields)) "model" = .str DEFAULT_UPSTREAM_MODEL) ∧
    objGet (normalizeRequestBody (.obj [("model", .str "gpt-5.3-codex-high")])) "model"
      = .str "gpt-5.3-codex" := by
  refine ⟨?_, ?_, ?_, by rfl⟩
  · intro s hmem
    have hne : jsTrimLower s ≠ "" := by
      intro h0
      rw [h0] at hmem
      exact absurd hmem (by decide)
    simp only [normalizeCodexModel, asStringJS]
    rw [if_neg hne, if_pos hmem]
  · intro s hmem hne
    simp only [normalizeCodexModel, asStringJS]
    rw [if_neg hne, if_neg hmem]
  · intro fields h
    have hmodel : objGet fields "model" = .undefined := by
      unfold objGet
      rw [h]
    simp only [normalizeRequestBody, bodyAfterInstructions, requestedModelOf,
      isObjectJS, jsSpread, if_pos]
    rw [objGet_setField_ne _ _ _ _ (by decide : "stream" ≠ "model"),
      objGet_setField_ne _ _ _ _ (by decide : "store" ≠ "model"),
      objGet_setField_ne _ _ _ _ (by decide : "include" ≠ "model"),
      objGet_setField_ne _ _ _ _ (by decide : "parallel_tool_calls" ≠ "model"),
      objGet_setField_ne _ _ _ _ (by decide : "tool_choice" ≠ "model"),
      objGet_setField_ne _ _ _ _ (by decide : "tools" ≠ "model"),
      objGet_setField_ne _ _ _ _ (by decide : "reasoning" ≠ "model"),
      objGet_setField_ne _ _ _ _ (by decide : "input" ≠ "model"),
      objGet_setField_ne _ _ _ _ (by decide : "instructions" ≠ "model"),
      objGet_setField_self]
    rw [hmodel]
    rfl

/-- C8 witness: `c8_theorem` applied to the alias `GPT-5.3-Codex-High` (which
trims and lower-cases into the alias set), to the passthrough model
`gpt-4.1`, and to a body with no model field. -/
theorem c8_witness :
    normalizeCodexModel (.str " GPT-5.3-Codex-High ") = DEFAULT_UPSTREAM_MODEL ∧
    normalizeCodexModel (.str "gpt-4.1") = jsTrimLower "gpt-4.1" ∧
    objGet (normalizeRequestBody (.obj [("stream", .bool true)])) "model"
      = .str DEFAULT_UPSTREAM_MODEL := by
  refine ⟨?_, ?_, ?_⟩
  · exact c8_theorem.1 " GPT-5.3-Codex-High " (by decide)
  · exact c8_theorem.2.1 "gpt-4.1" (by decide) (by decide)
  · exact c8_theorem.2.2.1 [("stream", .bool true)] (by rfl)

/-! ## Claim C9: claim decoding is total and fails soft -/

/-- C9: `decodeJwtPayload` is a total function into `Option` (the model of
"never throws"); a token with fewer than two dot-separated segments decodes
to none, a token whose decoded payload segment fails JSON parsing decodes to
none, and a token whose decoded payload parses to a non-object decodes to
none. -/
theorem c9_theorem :
    (∀ t : String, (strSplitOnChar (Char.ofNat 46) t).length < 2 →
        decodeJwtPayload t = none) ∧
    (∀ t : String, jsonParse (jwtPayloadText t) = none → decodeJwtPayload t = none) ∧
    (∀ (t : String) (v : JSValue), jsonParse (jwtPayloadText t) = some v →
        isObjectJS v = false → decodeJwtPayload t = none) := by
  refine ⟨?_, ?_, ?_⟩
  · intro t h
    simp only [decodeJwtPayload]
    rw [if_pos h]
  · intro t h
    simp only [jwtPayloadText] at h
    simp only [decodeJwtPayload]
    by_cases hlen : (strSplitOnChar (Char.ofNat 46) t).length < 2
    · rw [if_pos hlen]
    · rw [if_neg hlen, h]
  · intro t v h hobj
    simp only [jwtPayloadText] at h
    simp only [decodeJwtPayload]
    by_cases hlen : (strSplitOnChar (Char.ofNat 46) t).length < 2
    · rw [if_pos hlen]
    · rw [if_neg hlen, h]
      simp [hobj]

/-- C9 witness: `c9_theorem` applied to a one-segment token, to a token whose
payload segment is not base64 JSON, and to a token whose payload decodes to
the JSON string `"1"` (not an object). -/
theorem c9_witness :
    decodeJwtPayload "onlyonesegment" = none ∧
    decodeJwtPayload "a.!!!" = none ∧
    decodeJwtPayload "a.IjEi" = none := by
  refine ⟨?_, ?_, ?_⟩
  · exact c9_theorem.1 "onlyonesegment" (by decide)
  · exact c9_theorem.2.1 "a.!!!" (by rfl)
  · exact c9_theorem.2.2 "a.IjEi" (.str "1") (by rfl) (by rfl)

/-! ## Claim C10: normalization preserves all other fields -/

/-- C10: for a JSON-object request body, normalization leaves every key it
does not explicitly set untouched: any key other than model, instructions,
input, reasoning, tools, tool_choice, parallel_tool_calls, include, store
and stream reads the same value in the normalized body as in the original
body (and the normalized body is what is serialized upstream). -/
theorem c10_theorem (fields : List (String × JSValue)) (k : String)
    (h : k ∉ ["model", "instructions", "input", "reasoning", "tools", "tool_choice",
              "parallel_tool_calls", "include", "store", "stream"]) :
    objGet (normalizeRequestBody (.obj fields)) k = objGet fields k := by
  simp only [List.mem_cons, List.not_mem_nil, or_false, not_or] at h
  obtain ⟨hmo, hin, hip, hre, hto, htc, hpa, hic, hst, hsm⟩ := h
  simp only [normalizeRequestBody, bodyAfterInstructions, isObjectJS, jsSpread, if_pos]
  rw [objGet_setField_ne _ _ _ _ (Ne.symm hsm),
    objGet_setField_ne _ _ _ _ (Ne.symm hst),
    objGet_setField_ne _ _ _ _ (Ne.symm hic),
    objGet_setField_ne _ _ _ _ (Ne.symm hpa),
    objGet_setField_ne _ _ _ _ (Ne.symm htc),
    objGet_setField_ne _ _ _ _ (Ne.symm hto),
    objGet_setField_ne _ _ _ _ (Ne.symm hre),
    objGet_setField_ne _ _ _ _ (Ne.symm hip),
    objGet_setField_ne _ _ _ _ (Ne.symm hin),
    objGet_setField_ne _ _ _ _ (Ne.symm hmo)]

/-- C10 witness: `c10_theorem` applied to a body carrying `temperature`,
`max_output_tokens` and a chat-style `messages` array. -/
theorem c10_witness :
    objGet (normalizeRequestBody
        (.obj [("temperature", .str "0.7"), ("max_output_tokens", .str "128"),
               ("messages", .arr [.obj [("role", .str "user"), ("content", .str "hi")]])]))
      "temperature"
      = objGet [("temperature", .str "0.7"), ("max_output_tokens", .str "128"),
                ("messages", .arr [.obj [("role", .str "user"), ("content", .str "hi")]])]
          "temperature" ∧
    objGet (normalizeRequestBody
        (.obj [("temperature", .str "0.7"), ("max_output_tokens", .str "128"),
               ("messages", .arr [.obj [("role", .str "user"), ("content", .str "hi")]])]))
      "messages"
      = objGet [("temperature", .str "0.7"), ("max_output_tokens", .str "128"),
                ("messages", .arr [.obj [("role", .str "user"), ("content", .str "hi")]])]
          "messages" := by
  constructor
  · exact c10_theorem _ "temperature" (by decide)
  · exact c10_theorem _ "messages" (by decide)

/-! ## Claim C4: totality and defaults of the request normalizer -/

theorem isInputMessage_textToInputMessage (t : String) :
    isInputMessage (textToInputMessage t) = true := rfl

theorem convertChatMessage_isInputMessage (m v : JSValue)
    (h : convertChatMessage m = some v) : isInputMessage v = true := by
  unfold convertChatMessage at h
  split at h
  · cases hc : asStringJS (jsGet m "content") with
    | some text =>
      rw [hc] at h
      simp only [Option.some.injEq] at h
      subst h
      rfl
    | none =>
      rw [hc] at h
      exact absurd h (by simp)
  · exact absurd h (by simp)

theorem normalizeInputFallback_sound (body : List (String × JSValue)) :
    normalizeInputFallback body ≠ [] ∧
    (normalizeInputFallback body).all isInputMessage = true := by
  unfold normalizeInputFallback
  cases hm : objGet body "messages" with
  | arr msgs =>
    dsimp only
    by_cases he : (msgs.filterMap convertChatMessage).isEmpty
    · rw [if_pos he]
      exact ⟨by simp, rfl⟩
    · rw [if_neg he]
      constructor
      · intro h0
        rw [h0] at he
        exact he rfl
      · rw [List.all_eq_true]
        intro v hv
        obtain ⟨a, _, hconv⟩ := List.mem_filterMap.mp hv
        exact convertChatMessage_isInputMessage a v hconv
  | undefined => exact ⟨by simp, rfl⟩
  | null => exact ⟨by simp, rfl⟩
  | bool b => exact ⟨by simp, rfl⟩
  | num n => exact ⟨by simp, rfl⟩
  | str s => exact ⟨by simp, rfl⟩
  | obj fs => exact ⟨by simp, rfl⟩

theorem normalizeInput_sound (body : List (String × JSValue)) :
    (∀ ys, (match objGet body "input" with
            | JSValue.arr ys' => some ys'
            | _ => none) = some ys → normalizeInput body = ys) ∧
    ((match objGet body "input" with
      | JSValue.arr ys' => some ys'
      | _ => none) = none →
        normalizeInput body ≠ [] ∧ (normalizeInput body).all isInputMessage = true) := by
  unfold normalizeInput
  cases hv : objGet body "input" with
  | arr ys =>
    constructor
    · intro ys' h
      simpa using h
    · intro h
      simp at h
  | str s =>
    refine ⟨by intro ys h; simp at h, fun _ => ?_⟩
    dsimp only [asStringJS]
    by_cases hs : s ≠ "" ∧ jsTrim s ≠ ""
    · rw [if_pos hs]
      exact ⟨by simp, isInputMessage_textToInputMessage s⟩
    · rw [if_neg hs]
      exact normalizeInputFallback_sound body
  | undefined => exact ⟨by intro ys h; simp at h, fun _ => normalizeInputFallback_sound body⟩
  | null => exact ⟨by intro ys h; simp at h, fun _ => normalizeInputFallback_sound body⟩
  | bool b => exact ⟨by intro ys h; simp at h, fun _ => normalizeInputFallback_sound body⟩
  | num n => exact ⟨by intro ys h; simp at h, fun _ => normalizeInputFallback_sound body⟩
  | obj fs => exact ⟨by intro ys h; simp at h, fun _ => normalizeInputFallback_sound body⟩

theorem normalizeRequestBody_input_eq (raw : JSValue) :
    objGet (normalizeRequestBody raw) "input"
      = .arr (normalizeInput (bodyAfterInstructions raw)) ∧
    objGet (bodyAfterInstructions raw) "input"
      = objGet (if isObjectJS raw then jsSpread raw else []) "input" := by
  constructor
  · simp only [normalizeRequestBody]
    rw [objGet_setField_ne _ _ _ _ (by decide : "stream" ≠ "input"),
      objGet_setField_ne _ _ _ _ (by decide : "store" ≠ "input"),
      objGet_setField_ne _ _ _ _ (by decide : "include" ≠ "input"),
      objGet_setField_ne _ _ _ _ (by decide : "parallel_tool_calls" ≠ "input"),
      objGet_setField_ne _ _ _ _ (by decide : "tool_choice" ≠ "input"),
      objGet_setField_ne _ _ _ _ (by decide : "tools" ≠ "input"),
      objGet_setField_ne _ _ _ _ (by decide : "reasoning" ≠ "input"),
      objGet_setField_self]
  · simp only [bodyAfterInstructions]
    rw [objGet_setField_ne _ _ _ _ (by decide : "instructions" ≠ "input"),
      objGet_setField_ne _ _ _ _ (by decide : "model" ≠ "input")]

/-- C4 counterexample. The claim says `normalize` always produces a non-empty
`input` sequence, but a client-supplied `input: []` is passed through
verbatim by the first branch of `normalizeInput`, leaving `input` empty. -/
theorem c4_counterexample :
    objGet (normalizeRequestBody (.obj [("input", .arr [])])) "input"
      = .arr ([] : List JSValue) := rfl

/-- C4 (amended): `normalize` is a total function; for every raw body
(object or not) the result has `store = false`, `stream = true` and an
`input` array; when the client supplied `input` as an array that array is
passed through verbatim (even when empty), and otherwise `input` is a
non-empty sequence of message objects. -/
theorem c4_theorem (raw : JSValue) :
    objGet (normalizeRequestBody raw) "store" = .bool false ∧
    objGet (normalizeRequestBody raw) "stream" = .bool true ∧
    ∃ xs : List JSValue,
      objGet (normalizeRequestBody raw) "input" = .arr xs ∧
      (∀ ys, clientInputArray raw = some ys → xs = ys) ∧
      (clientInputArray raw = none →
        xs ≠ [] ∧ xs.all isInputMessage = true) := by
  refine ⟨?_, ?_, ?_⟩
  · simp only [normalizeRequestBody]
    rw [objGet_setField_ne _ _ _ _ (by decide : "stream" ≠ "store"),
      objGet_setField_self]
  · simp only [normalizeRequestBody]
    rw [objGet_setField_self]
  · obtain ⟨h1, h2⟩ := normalizeRequestBody_input_eq raw
    have hca : clientInputArray raw
        = (match objGet (bodyAfterInstructions raw) "input" with
           | JSValue.arr ys' => some ys'
           | _ => none) := by
      unfold clientInputArray
      rw [h2]
    refine ⟨normalizeInput (bodyAfterInstructions raw), h1, ?_, ?_⟩
    · intro ys hys
      rw [hca] at hys
      exact (normalizeInput_sound (bodyAfterInstructions raw)).1 ys hys
    · intro hnone
      rw [hca] at hnone
      exact (normalizeInput_sound (bodyAfterInstructions raw)).2 hnone

/-- C4 witness: `c4_theorem` applied to the empty body and to a body whose
input is a non-empty client array. -/
theorem c4_witness :
    objGet (normalizeRequestBody (.obj [])) "store" = .bool false ∧
    objGet (normalizeRequestBody (.obj [])) "stream" = .bool true := by
  exact ⟨(c4_theorem (.obj [])).1, (c4_theorem (.obj [])).2.1⟩

/-! ## Claim C5: output-text accumulation in event order -/

/-- C5: during SSE aggregation a `response.output_text.delta` event with a
string `delta` appends that delta to the accumulated text (and changes
nothing else), a `response.output_text.done` event with a string `text` sets
the accumulated text only when nothing has been accumulated yet; and the
sample stream of deltas "Hello", ", ", "world" aggregates to
`outputText = "Hello, world"` with 3 events and neither a completed nor an
error result. -/
theorem c5_theorem :
    (∀ (acc : Aggregated) (data : JSValue) (d : String),
       isObjectJS data = true →
       jsGet data "type" = .str "response.output_text.delta" →
       jsGet data "delta" = .str d →
       aggregateStep acc data = { acc with outputText := acc.outputText ++ d }) ∧
    (∀ (acc : Aggregated) (data : JSValue) (t : String),
       isObjectJS data = true →
       jsGet data "type" = .str "response.output_text.done" →
       jsGet data "text" = .str t →
       aggregateStep acc data =
         (if acc.outputText = "" then { acc with outputText := t } else acc)) ∧
    buildNonStreamResponseFromSSE helloSSE
      = { completed := none, error := none, outputText := "Hello, world",
          eventCount := 3 } := by
  refine ⟨?_, ?_, by rfl⟩
  · intro acc data d hobj hty hd
    simp only [aggregateStep, hty, hd, asStringJS, hobj]
    simp
  · intro acc data t hobj hty ht
    simp only [aggregateStep, hty, ht, asStringJS, hobj]
    simp

/-- C5 witness: `c5_theorem` applied to one concrete delta event and one
concrete done event. -/
theorem c5_witness :
    aggregateStep { completed := none, error := none, outputText := "Hi", eventCount := 0 }
        (.obj [("type", .str "response.output_text.delta"), ("delta", .str "!")])
      = { completed := none, error := none, outputText := "Hi" ++ "!", eventCount := 0 } ∧
    aggregateStep { completed := none, error := none, outputText := "", eventCount := 0 }
        (.obj [("type", .str "response.output_text.done"), ("text", .str "all")])
      = (if ("" : String) = "" then
          { completed := none, error := none, outputText := "all", eventCount := 0 }
         else { completed := none, error := none, outputText := "", eventCount := 0 }) := by
  constructor
  · exact c5_theorem.1
      { completed := none, error := none, outputText := "Hi", eventCount := 0 }
      (.obj [("type", .str "response.output_text.delta"), ("delta", .str "!")])
      "!" rfl rfl rfl
  · exact c5_theorem.2.1
      { completed := none, error := none, outputText := "", eventCount := 0 }
      (.obj [("type", .str "response.output_text.done"), ("text", .str "all")])
      "all" rfl rfl rfl

/-! ## Claim C6: `response.failed` events surface as client-visible failures -/

/-- C6: a `response.failed` event with an object `response` sets the
completed result to that response and, when no error was recorded yet, sets
the error result from the failed response's embedded `error` object (an
already-recorded error is kept); whenever the error result is present, the
non-streaming caller gets status 400 with the error object and the partial
output text; and the sample stream whose only event is a `response.failed`
with an embedded error (no top-level `error` event) surfaces that error as a
400. -/
theorem c6_theorem :
    (∀ (acc : Aggregated) (data r : JSValue),
       isObjectJS data = true →
       jsGet data "type" = .str "response.failed" →
       jsGet data "response" = r →
       isObjectJS r = true →
       ((aggregateStep acc data).completed = some r ∧
        (acc.error = none → isObjectJS (jsGet r "error") = true →
          (aggregateStep acc data).error = some (jsGet r "error")) ∧
        (∀ e, acc.error = some e → (aggregateStep acc data).error = some e))) ∧
    (∀ (agg : Aggregated) (upstreamStatus : Nat) (raw : String) (e : JSValue),
       agg.error = some e →
       shapeNonStreamResponse agg upstreamStatus raw
         = (400, .errorBody e agg.outputText)) ∧
    (buildNonStreamResponseFromSSE failedSSE).completed
      = some (.obj [("id", .str "resp_1"),
                    ("error", .obj [("message", .str "quota exceeded")])]) ∧
    (buildNonStreamResponseFromSSE failedSSE).error
      = some (.obj [("message", .str "quota exceeded")]) ∧
    shapeNonStreamResponse (buildNonStreamResponseFromSSE failedSSE) 200 failedSSE
      = (400, .errorBody (.obj [("message", .str "quota exceeded")]) "") := by
  refine ⟨?_, ?_, by rfl, by rfl, by rfl⟩
  · intro acc data r hobj hty hr hrobj
    simp only [aggregateStep, hty, hr, asStringJS, hobj]
    refine ⟨by simp [hrobj], ?_, ?_⟩
    · intro hnone herr
      simp [hnone, herr, hrobj]
    · intro e he
      simp [he, hrobj]
  · intro agg upstreamStatus raw e he
    unfold shapeNonStreamResponse
    rw [he]

/-- C6 witness: `c6_theorem` applied to a concrete failed event on a fresh
accumulator and to a concrete aggregation result carrying an error. -/
theorem c6_witness :
    (aggregateStep { completed := none, error := none, outputText := "", eventCount := 0 }
        (.obj [("type", .str "response.failed"),
               ("response", .obj [("error", .obj [("message", .str "bad")])])])).error
      = some (jsGet (.obj [("error", .obj [("message", .str "bad")])]) "error") ∧
    shapeNonStreamResponse
        { completed := none, error := some (.obj [("message", .str "bad")]),
          outputText := "part", eventCount := 1 } 200 "raw"
      = (400, .errorBody (.obj [("message", .str "bad")]) "part") := by
  constructor
  · exact ((c6_theorem.1
      { completed := none, error := none, outputText := "", eventCount := 0 }
      (.obj [("type", .str "response.failed"),
             ("response", .obj [("error", .obj [("message", .str "bad")])])])
      (.obj [("error", .obj [("message", .str "bad")])])
      rfl rfl rfl rfl).2.1 rfl rfl)
  · exact c6_theorem.2.1
      { completed := none, error := some (.obj [("message", .str "bad")]),
        outputText := "part", eventCount := 1 } 200 "raw"
      (.obj [("message", .str "bad")]) rfl

/-! ## Claim C1: proxy authentication characterization -/

theorem length_pos_of_ne_empty (s : String) (h : s ≠ "") : s.length > 0 := by
  cases s with
  | mk l =>
    cases l with
    | nil => exact absurd rfl h
    | cons c cs => simp [String.length]

/-- C1 counterexample. The claim's instance says `Bearer abc123` is accepted
iff the secret is `abc123`; but when the secret is the full string
`Bearer abc123`, the raw-header comparison accepts the same header value. -/
theorem c1_counterexample :
    validateProxyAuth { authorization := some "Bearer abc123", xApiKey := none,
                        apiKey := none } "Bearer abc123" = true ∧
    "Bearer abc123" ≠ "abc123" := by
  exact ⟨rfl, by decide⟩

/-- C1 (amended): for every non-empty secret (start-up refuses an empty
`PROXY_SECRET`), `validateProxyAuth` accepts exactly when, after trimming and
quote-stripping, the raw `Authorization` value, the `Bearer` token portion,
the `Basic` user or password part, or the `x-api-key`/`api-key` value equals
the secret; in particular `Bearer abc123` is accepted when the secret is
`abc123` and also when the secret is the raw value `Bearer abc123` itself,
and a non-matching value is refused with status 401. -/
theorem c1_theorem :
    (∀ (h : ReqHeaders) (secret : String), secret ≠ "" →
       validateProxyAuth h secret = specAuthAccepted h secret) ∧
    validateProxyAuth { authorization := some "Bearer abc123", xApiKey := none,
                        apiKey := none } "abc123" = true ∧
    validateProxyAuth { authorization := some "Bearer abc123", xApiKey := none,
                        apiKey := none } "Bearer abc123" = true ∧
    proxyAuthGate { authorization := some "Bearer wrong", xApiKey := none,
                    apiKey := none } "abc123" = some 401 := by
  refine ⟨?_, rfl, rfl, rfl⟩
  intro h secret hs
  obtain ⟨auth, xkey, akey⟩ := h
  unfold validateProxyAuth specAuthAccepted
  cases auth with
  | none =>
    dsimp only
    cases xkey with
    | none =>
      cases akey with
      | none => simp
      | some k => by_cases hk : normalizeSecretValue k = secret <;> simp [hk]
    | some x =>
      cases akey with
      | none => by_cases hx : normalizeSecretValue x = secret <;> simp [hx]
      | some k =>
        by_cases hx : normalizeSecretValue x = secret <;>
          by_cases hk : normalizeSecretValue k = secret <;> simp [hx, hk]
  | some a =>
    dsimp only
    by_cases ht : jsTrim a = ""
    · have hlen : ¬ (jsTrim a).length > 0 := by
        rw [ht]
        decide
      have hraw : normalizeSecretValue a = "" := by
        rw [← normalizeSecretValue_trim, ht]
        rfl
      have hbear : schemeCapture "bearer" (jsTrim a) = none := by
        rw [ht]
        rfl
      have hbasic : schemeCapture "basic" (jsTrim a) = none := by
        rw [ht]
        rfl
      rw [if_neg hlen, hraw, hbear, hbasic]
      have hfs : ("" = secret) = False := by
        simp [Ne.symm hs]
      cases xkey with
      | none =>
        cases akey with
        | none => simp [hfs]
        | some k => by_cases hk : normalizeSecretValue k = secret <;> simp [hk, hfs]
      | some x =>
        cases akey with
        | none => by_cases hx : normalizeSecretValue x = secret <;> simp [hx, hfs]
        | some k =>
          by_cases hx : normalizeSecretValue x = secret <;>
            by_cases hk : normalizeSecretValue k = secret <;> simp [hx, hk, hfs]
    · have hlen : (jsTrim a).length > 0 := length_pos_of_ne_empty _ ht
      rw [if_pos hlen, normalizeSecretValue_trim]
      by_cases hr : normalizeSecretValue a = secret
      · rw [if_pos hr]
        simp [hr]
      · rw [if_neg hr]
        have hrd : (normalizeSecretValue a = secret) = False := by simp [hr]
        cases hb : schemeCapture "bearer" (jsTrim a) with
        | some tok =>
          by_cases htok : normalizeSecretValue tok = secret
          · simp [htok, hrd]
          · simp only [htok, hrd, decide_False, Bool.false_or, decide_eq_true_eq]
            cases hba : schemeCapture "basic" (jsTrim a) with
            | some enc =>
              by_cases hu : normalizeSecretValue (basicUserPass (base64ToUtf8 enc)).1 = secret <;>
                by_cases hp : normalizeSecretValue (basicUserPass (base64ToUtf8 enc)).2 = secret <;>
                  cases xkey <;> cases akey <;> simp [hu, hp]
            | none => cases xkey <;> cases akey <;> simp
        | none =>
          simp only [hrd, decide_False, Bool.false_or]
          cases hba : schemeCapture "basic" (jsTrim a) with
          | some enc =>
            by_cases hu : normalizeSecretValue (basicUserPass (base64ToUtf8 enc)).1 = secret <;>
              by_cases hp : normalizeSecretValue (basicUserPass (base64ToUtf8 enc)).2 = secret <;>
                cases xkey <;> cases akey <;> simp [hu, hp]
          | none => cases xkey <;> cases akey <;> simp

/-- C1 witness: `c1_theorem` applied to concrete headers and the non-empty
secret `abc123`. -/
theorem c1_witness :
    validateProxyAuth { authorization := some "Basic YWJjMTIzOnBhc3M=",
                        xApiKey := none, apiKey := none } "abc123"
      = specAuthAccepted { authorization := some "Basic YWJjMTIzOnBhc3M=",
                           xApiKey := none, apiKey := none } "abc123" := by
  exact c1_theorem.1
    { authorization := some "Basic YWJjMTIzOnBhc3M=", xApiKey := none, apiKey := none }
    "abc123" (by decide)
